import Mathlib

/-!
Verification development for the CPI inflation data pipeline
(`inflation_app/data_processor.py` together with its configuration model
`inflation_app/config_base_model.py`).

The pipeline is shallowly embedded:

* machine floats of the pandas dataframes are idealised as `ℚ`; the
  undefined entries produced by `pct_change` (NaN) are an explicit
  `Option ℚ`, so `dropna` is a `filterMap`;
* the HTTP layer is an oracle `String → FetchResult`; a connection-level
  failure of `aiohttp` is `FetchResult.transportError`, and a Python
  exception escaping a function is `Except.error`;
* a CSV body is abstracted as its tokenised rows (`List (List String)`);
  per-column dtype inference of `read_csv` is the check that every cell of
  the value column parses as a numeral (a column with a non-numeric cell
  stays textual and `pct_change` then raises, which the code converts to
  the same logged-`None` outcome); missing cells / NaN fills are outside
  the model, no claim depends on them;
* `asyncio.gather` over the per-source coroutines is modelled by running
  the pipelines in list order: the only observables the claims speak about
  are whether an exception escapes `run` and the collected results when no
  exception occurs, and both are order-independent;
* `logging` is the list of emitted events, each a severity plus the tag
  (`config.name` or `config.url`) the message carries.
-/

namespace InflationApp

/-- Severity of a log event (`logger.error` / `logger.warning`). -/
inductive Sev
  | error
  | warning
  deriving DecidableEq, Repr

/-- A log event: severity plus the source tag (`config.name` or `config.url`)
interpolated into the message. -/
structure LogEvent where
  sev : Sev
  tag : String
  deriving DecidableEq, Repr

/-- A Python exception escaping a pipeline function. `transport` is a
connection-level `aiohttp` error raised by `session.get`; `emptyConcat` is
the `ValueError` of `pd.concat` on an empty collection. -/
inductive PyErr
  | transport
  | emptyConcat
  deriving DecidableEq, Repr

/-- Modelled from the spec: the module `inflation_app/constants.py` is not in
the sources; it only defines the two column-name constants `DATE_FIELD` and
`CPI_SUFFIX` used by `data_processor.py`. Values chosen per the spec's data
model (a date field and a per-source CPI column named after the series). -/
def DATE_FIELD : String := "Date"

/-- Modelled from the spec: suffix appended to `config.name` to name the raw
CPI column (`constants.py` is not in the sources). -/
def CPI_SUFFIX : String := " CPI"

/-- `inflation_app/config_base_model.py` (plus the `freq` field used by
`data_processor.process_data`, carried by the sibling revision
`config_dataclass.py`; quarterly by default). Validation guarantees
`date_column ≠ cpi_column` before a config reaches the pipeline. -/
structure Config where
  url : String
  skiprows : Nat := 0
  freq : String := "Q"
  name : String
  date_column : Nat
  cpi_column : Nat
  deriving DecidableEq, Repr

/-- Map each list element through a fallible function, failing the whole
list on the first failure — the evaluation model of a pandas conversion
(`pd.PeriodIndex`, numeric dtype inference) that raises on a bad element. -/
def mapOpt (f : α → Option β) : List α → Option (List β)
  | [] => some []
  | a :: l =>
    match f a, mapOpt f l with
    | some b, some bs => some (b :: bs)
    | _, _ => none

/-- `df[DATE_FIELD].str.replace(" ", "-")` on one token: every space becomes
a hyphen. -/
def replaceSpaces (s : String) : String :=
  String.mk (s.data.map (fun c => if c = ' ' then '-' else c))

/-- Whether the regex `\d{4}-Q\d` matches at the head of the character list. -/
def startsQPat : List Char → Bool
  | a :: b :: c :: d :: e :: f :: g :: _ =>
    a.isDigit && b.isDigit && c.isDigit && d.isDigit && e == '-' && f == 'Q' && g.isDigit
  | _ => false

/-- `Series.str.contains(r"\d{4}-Q\d")`: search (not full match) for the
quarter pattern anywhere in the token. -/
def hasQPat : List Char → Bool
  | [] => false
  | l@(_ :: t) => startsQPat l || hasQPat t

/-- Numeric value of a digit character. -/
def digitVal (c : Char) : Nat := c.toNat - '0'.toNat

/-- `pd.PeriodIndex(tokens, freq="Q")` on one token, as a quarter index
`year * 4 + (quarter - 1)`. Pandas accepts a `YYYY-Qq` token with the
quarter between 1 and 4 and raises `DateParseError` otherwise; the raise is
`none` here and fails the whole index via `mapOpt`. -/
def parsePeriod (s : String) : Option Nat :=
  match s.data with
  | [a, b, c, d, e, f, g] =>
    if a.isDigit && b.isDigit && c.isDigit && d.isDigit && e == '-' && f == 'Q'
        && (g == '1' || g == '2' || g == '3' || g == '4') then
      some ((((digitVal a * 10 + digitVal b) * 10 + digitVal c) * 10 + digitVal d) * 4
        + (digitVal g - 1))
    else none
  | _ => none

/-- Digits of a numeral, most significant first. -/
def parseDigits : List Char → Option Nat
  | [] => none
  | l =>
    if l.all Char.isDigit then some (l.foldl (fun n c => n * 10 + digitVal c) 0) else none

/-- Unsigned decimal numeral, optionally with a fractional part. -/
def parseUnsigned (l : List Char) : Option ℚ :=
  match l.splitOn '.' with
  | [ip] => (parseDigits ip).map (fun n => (n : ℚ))
  | [ip, fp] =>
    match parseDigits ip, parseDigits fp with
    | some n, some m => some ((n : ℚ) + (m : ℚ) / (10 : ℚ) ^ fp.length)
    | _, _ => none
  | _ => none

/-- A CSV cell read as a number (the dtype inference of `read_csv`):
an optional sign followed by a decimal numeral. -/
def parseQ (s : String) : Option ℚ :=
  match s.data with
  | '-' :: rest => (parseUnsigned rest).map (fun q => -q)
  | l => parseUnsigned l

/-- Outcome of `session.get(config.url)`: either a connection-level error
raised by `aiohttp` (DNS failure, refused connection, TLS/transport error)
or a response carrying a status code and a body, the body abstracted as
tokenised CSV rows. -/
inductive FetchResult
  | transportError
  | response (status : Nat) (body : List (List String))

/-- Placeholder cell used with `List.getD` when a column index is selected;
the surrounding guards ensure it is never the value actually read. -/
def emptyCell : String := ""

/-- The `names=` argument computed in `get_data`: pandas assigns the given
names to the selected columns in ascending positional order, so the code
swaps them when `date_column > cpi_column`. -/
def csvNames (cfg : Config) : List String :=
  if cfg.date_column < cfg.cpi_column then [DATE_FIELD, cfg.name ++ CPI_SUFFIX]
  else [cfg.name ++ CPI_SUFFIX, DATE_FIELD]

/-- The selected column positions in the order pandas reads them (ascending;
`usecols` element order is ignored by `read_csv`). -/
def usecolsSorted (cfg : Config) : List Nat :=
  if cfg.date_column < cfg.cpi_column then [cfg.date_column, cfg.cpi_column]
  else [cfg.cpi_column, cfg.date_column]

/-- Column access by name on the two selected, named cells of one row. -/
def lookupCol (cols : List (String × String)) (colName : String) : Option String :=
  (cols.find? (fun c => c.1 == colName)).map Prod.snd

/-- One row of `pd.read_csv(..., usecols=..., names=...)`, reduced to the
logical pair (cell of the `DATE_FIELD` column, cell of the CPI column).
A selected position beyond the row's width is the `usecols`-out-of-range
`ValueError` of pandas, i.e. `none`. -/
def readRow (cfg : Config) (row : List String) : Option (String × String) :=
  if max cfg.date_column cfg.cpi_column < row.length then
    let cols := (csvNames cfg).zip ((usecolsSorted cfg).map (fun i => row.getD i emptyCell))
    match lookupCol cols DATE_FIELD, lookupCol cols (cfg.name ++ CPI_SUFFIX) with
    | some d, some v => some (d, v)
    | _, _ => none
  else none

/-- `pd.read_csv(io.StringIO(content), skiprows=..., usecols=..., names=...)`:
drop the configured header rows, then extract the two configured columns of
every remaining row; any failing row raises, i.e. yields `none`. -/
def readCsv (cfg : Config) (body : List (List String)) : Option (List (String × String)) :=
  mapOpt (readRow cfg) (body.drop cfg.skiprows)

/-- `DataProcessor.get_data`. The status check and the CSV read are inside
the function's `try`/`except`, so they resolve to `Except.ok none` plus one
error event tagged with the url; a transport error is raised by
`session.get` OUTSIDE the `try` block and escapes as `Except.error`. -/
def getData (cfg : Config) (net : String → FetchResult) :
    Except PyErr (Option (List (String × String))) × List LogEvent :=
  match net cfg.url with
  | .transportError => (.error .transport, [])
  | .response status body =>
    if status ≠ 200 then (.ok none, [⟨.error, cfg.url⟩])
    else
      match readCsv cfg body with
      | none => (.ok none, [⟨.error, cfg.url⟩])
      | some df => (.ok (some df), [])

/-- `Series.pct_change(periods=4) * 100`, positional: row `i` is undefined
(NaN, here `none`) for `i < 4` and otherwise compares with the value four
ROWS back in the order the rows currently have. -/
def pctChange4 (values : List ℚ) : List (Option ℚ) :=
  List.replicate 4 none ++
    (List.zipWith (fun v vp => (v - vp) / vp * 100) (values.drop 4) values).map Option.some

/-- Ordering of index entries by period key, as used by `sort_index`. -/
def keyLE : Nat × Option ℚ → Nat × Option ℚ → Prop := fun a b => a.1 ≤ b.1

instance : DecidableRel keyLE := fun a b => inferInstanceAs (Decidable (a.1 ≤ b.1))

instance : IsTotal (Nat × Option ℚ) keyLE := ⟨fun a b => Nat.le_total a.1 b.1⟩

instance : IsTrans (Nat × Option ℚ) keyLE := ⟨fun _ _ _ h1 h2 => le_trans h1 h2⟩

/-- The tail of `process_data` once periods and numeric values are in hand:
attach the positional `pct_change` rates to the period index, `sort_index`,
then `dropna` (drop the entries whose rate is undefined). -/
def normalizeEntries (periods : List Nat) (values : List ℚ) : List (Nat × ℚ) :=
  (List.insertionSort keyLE (periods.zip (pctChange4 values))).filterMap
    (fun e => e.2.map (fun r => (e.1, r)))

/-- The date-token cleanup and quarter filter at the head of `process_data`:
replace spaces by hyphens in every date token, then keep the rows whose
token contains the quarter pattern. -/
def keptOf (input : List (String × String)) : List (String × String) :=
  (input.map (fun p => (replaceSpaces p.1, p.2))).filter (fun p => hasQPat p.1.data)

/-- `DataProcessor.process_data`, tail: attach the rates and build the
return value — an empty RESULT is not a raise, it comes back as `some []`
together with one logged event tagged with the series name. -/
def processedOf (seriesName : String) (periods : List Nat) (values : List ℚ) :
    Option (List (Nat × ℚ)) × List LogEvent :=
  (some (normalizeEntries periods values),
    if (normalizeEntries periods values).isEmpty then [⟨.error, seriesName⟩] else [])

/-- `DataProcessor.process_data` on the dataframe `input` of (date cell,
value cell) rows. Everything is inside one `try`/`except`, so each raising
step resolves to `none` plus one error event tagged with the series name:
`pd.PeriodIndex` raises on an empty filtered frame and on a retained token
it cannot parse; `pct_change` raises when the value column kept a
non-numeric cell somewhere (textual dtype). -/
def processData (seriesName : String) (input : List (String × String)) :
    Option (List (Nat × ℚ)) × List LogEvent :=
  if (keptOf input).isEmpty then (none, [⟨.error, seriesName⟩])
  else
    match mapOpt (fun p => parsePeriod p.1) (keptOf input) with
    | none => (none, [⟨.error, seriesName⟩])
    | some periods =>
      if input.all (fun p => (parseQ p.2).isSome) then
        processedOf seriesName periods ((keptOf input).map (fun p => (parseQ p.2).getD 0))
      else (none, [⟨.error, seriesName⟩])

/-- The per-run results store `self.dataframes` (a dict keyed by
`config.name`, insertion ordered). -/
abbrev DPState := List (String × List (Nat × ℚ))

/-- Keyed insert into the results store (`self.dataframes[name] = df`). -/
def insertDf (st : DPState) (n : String) (v : List (Nat × ℚ)) : DPState :=
  if st.any (fun p => p.1 == n) then st.map (fun p => if p.1 == n then (n, v) else p)
  else st ++ [(n, v)]

/-- The guard of `get_and_process_data`: store the processed frame only when
it is neither `None` nor empty. -/
def storeResult (st : DPState) (n : String) (r : Option (List (Nat × ℚ))) : DPState :=
  match r with
  | some l => if l.isEmpty then st else insertDf st n l
  | none => st

/-- `DataProcessor.get_and_process_data`: one source's fetch-then-normalize
pipeline, updating the results store. An exception escaping `get_data`
escapes here too. -/
def getAndProcessData (cfg : Config) (net : String → FetchResult) (st : DPState) :
    Except PyErr DPState × List LogEvent :=
  match getData cfg net with
  | (.error e, ev) => (.error e, ev)
  | (.ok none, ev) => (.ok st, ev)
  | (.ok (some df), ev) =>
    match processData cfg.name df with
    | (r, ev2) => (.ok (storeResult st cfg.name r), ev ++ ev2)

/-- Sequential elaboration of `asyncio.gather` over the per-source
pipelines: pipelines run in list order and the first escaping exception
propagates out of the gather. -/
def runAux (net : String → FetchResult) :
    List Config → DPState → List LogEvent → Except PyErr DPState × List LogEvent
  | [], st, ev => (.ok st, ev)
  | cfg :: rest, st, ev =>
    match getAndProcessData cfg net st with
    | (.ok st2, ev2) => runAux net rest st2 (ev ++ ev2)
    | (.error e, ev2) => (.error e, ev ++ ev2)

/-- `DataProcessor.run`. -/
def run (cfgs : List Config) (net : String → FetchResult) :
    Except PyErr DPState × List LogEvent :=
  runAux net cfgs [] []

/-- Period keys of one normalized series. -/
def seriesKeys (s : List (Nat × ℚ)) : List Nat := s.map Prod.fst

/-- Value of a series at a period (first matching index entry). -/
def lookupPeriod (s : List (Nat × ℚ)) (p : Nat) : Option ℚ :=
  (s.find? (fun e => e.1 == p)).map Prod.snd

/-- The index of `pd.concat(..., join="inner", axis=1)`: the periods of the
first frame that every other frame also has. -/
def innerIndex (dfs : List (List (Nat × ℚ))) : List Nat :=
  match dfs with
  | [] => []
  | s :: rest =>
    (seriesKeys s).filter (fun p => rest.all (fun t => (seriesKeys t).contains p))

/-- The rows of the inner concat after `dropna`: one row per common period,
kept only when every series has a value there (which inner alignment
already guarantees). -/
def mergeRows (dfs : List (List (Nat × ℚ))) : List (Nat × List ℚ) :=
  (innerIndex dfs).filterMap
    (fun p => (mapOpt (fun s => lookupPeriod s p) dfs).map (fun vs => (p, vs)))

/-- Tag used by the merge-stage log event (its message carries no source
name or url). -/
def mergeTag : String := "merge"

/-- `DataProcessor.merge_data`: `pd.concat` raises `ValueError` on an empty
collection (`Except.error`); an empty merged frame is logged and returned
as `None`; otherwise the merged frame comes back. -/
def mergeData (st : DPState) : Except PyErr (Option (List (Nat × List ℚ))) × List LogEvent :=
  if st.isEmpty then (.error .emptyConcat, [])
  else
    if (mergeRows (st.map Prod.snd)).isEmpty then (.ok none, [⟨.error, mergeTag⟩])
    else (.ok (some (mergeRows (st.map Prod.snd))), [])

/-- The figure handed to the chart boundary: the merged table plus its
column names (the Plotly layout itself is out of scope). -/
structure Figure where
  columns : List String
  rows : List (Nat × List ℚ)
  deriving DecidableEq, Repr

/-- `DataProcessor.generate_figure`: run all pipelines, and only if at least
one series was collected, merge; `None` both when nothing was collected and
when the merge is empty. An exception escaping `run` escapes here. -/
def generateFigure (cfgs : List Config) (net : String → FetchResult) :
    Except PyErr (Option Figure) × List LogEvent :=
  match run cfgs net with
  | (.error e, ev) => (.error e, ev)
  | (.ok st, ev) =>
    if st.isEmpty then (.ok none, ev)
    else
      match mergeData st with
      | (.error e, ev2) => (.error e, ev ++ ev2)
      | (.ok none, ev2) => (.ok none, ev ++ ev2)
      | (.ok (some rows), ev2) => (.ok (some ⟨st.map Prod.fst, rows⟩), ev ++ ev2)

/-! ### Shared lemmas about the embedding's list combinators -/

theorem mapOpt_some_of_forall {α β : Type} {f : α → Option β} {g : α → β} :
    ∀ {l : List α}, (∀ a ∈ l, f a = some (g a)) → mapOpt f l = some (l.map g)
  | [], _ => rfl
  | a :: l, h => by
    have ha := h a (List.mem_cons_self a l)
    have hl := mapOpt_some_of_forall (fun x hx => h x (List.mem_cons_of_mem a hx))
    simp [mapOpt, ha, hl]

theorem mapOpt_none_of_mem {α β : Type} {f : α → Option β} {a : α} :
    ∀ {l : List α}, a ∈ l → f a = none → mapOpt f l = none
  | [], ha, _ => absurd ha (List.not_mem_nil a)
  | b :: l, ha, hf => by
    rcases List.mem_cons.mp ha with rfl | ha'
    · simp [mapOpt, hf]
    · have := mapOpt_none_of_mem ha' hf
      simp only [mapOpt, this]
      cases f b <;> rfl

theorem mapOpt_length {α β : Type} {f : α → Option β} :
    ∀ {l : List α} {bs : List β}, mapOpt f l = some bs → bs.length = l.length
  | [], bs, h => by simp [mapOpt] at h; simp [← h]
  | a :: l, bs, h => by
    revert h
    simp only [mapOpt]
    cases hfa : f a with
    | none => intro h; cases h
    | some b =>
      cases hml : mapOpt f l with
      | none => intro h; cases h
      | some cs =>
        intro h
        cases h
        simp [mapOpt_length hml]

theorem mapOpt_isSome_of_eq_some {α β : Type} {f : α → Option β} :
    ∀ {l : List α} {bs : List β}, mapOpt f l = some bs → ∀ a ∈ l, (f a).isSome
  | [], _, _ => fun a ha => absurd ha (List.not_mem_nil a)
  | a :: l, bs, h => by
    revert h
    simp only [mapOpt]
    cases hfa : f a with
    | none => intro h; cases h
    | some b =>
      cases hml : mapOpt f l with
      | none => intro h; cases h
      | some cs =>
        intro _ x hx
        rcases List.mem_cons.mp hx with rfl | hx'
        · simp [hfa]
        · exact mapOpt_isSome_of_eq_some hml x hx'

theorem mapOpt_eq_some_getD {α β : Type} {f : α → Option β} (d : β) :
    ∀ {l : List α} {bs : List β}, mapOpt f l = some bs →
      bs = l.map (fun a => (f a).getD d)
  | [], bs, h => by simp [mapOpt] at h; simp [← h]
  | a :: l, bs, h => by
    revert h
    simp only [mapOpt]
    cases hfa : f a with
    | none => intro h; cases h
    | some b =>
      cases hml : mapOpt f l with
      | none => intro h; cases h
      | some cs =>
        intro h
        cases h
        simp [hfa, mapOpt_eq_some_getD d hml]

theorem mapOpt_some_of_forall_isSome {α β : Type} {f : α → Option β} :
    ∀ {l : List α}, (∀ a ∈ l, (f a).isSome) → ∃ bs, mapOpt f l = some bs
  | [], _ => ⟨[], rfl⟩
  | a :: l, h => by
    obtain ⟨b, hb⟩ := Option.isSome_iff_exists.mp (h a (List.mem_cons_self a l))
    obtain ⟨bs, hbs⟩ := mapOpt_some_of_forall_isSome
      (fun x hx => h x (List.mem_cons_of_mem a hx))
    exact ⟨b :: bs, by simp [mapOpt, hb, hbs]⟩

/-! ### Lemmas about the dropna step -/

theorem filterMap_pair_eq_nil {l : List (Nat × Option ℚ)} (h : ∀ e ∈ l, e.2 = none) :
    l.filterMap (fun e => e.2.map (fun r => (e.1, r))) = [] := by
  induction l with
  | nil => rfl
  | cons e l ih =>
    have he := h e (List.mem_cons_self e l)
    simp [List.filterMap_cons, he, ih (fun x hx => h x (List.mem_cons_of_mem e hx))]

theorem filterMap_pair_zip_some :
    ∀ (P : List Nat) (rs : List ℚ),
      (P.zip (rs.map Option.some)).filterMap (fun e => e.2.map (fun r => (e.1, r))) =
        P.zip rs
  | [], _ => rfl
  | _ :: _, [] => rfl
  | p :: P, r :: rs => by
    simp [List.zip_cons_cons, List.filterMap_cons, filterMap_pair_zip_some P rs]

theorem filterMap_pair_zip_replicate :
    ∀ (k : Nat) (P : List Nat) (rs : List ℚ),
      (P.zip (List.replicate k none ++ rs.map Option.some)).filterMap
          (fun e => e.2.map (fun r => (e.1, r))) =
        (P.drop k).zip rs
  | 0, P, rs => by simpa using filterMap_pair_zip_some P rs
  | k + 1, [], rs => rfl
  | k + 1, p :: P, rs => by
    simp [List.replicate_succ, List.zip_cons_cons, List.filterMap_cons,
      filterMap_pair_zip_replicate k P rs]

theorem filterMap_pair_keys_sublist (l : List (Nat × Option ℚ)) :
    ((l.filterMap (fun e => e.2.map (fun r => (e.1, r)))).map Prod.fst).Sublist
      (l.map Prod.fst) := by
  induction l with
  | nil => simp
  | cons e l ih =>
    cases he : e.2 with
    | none =>
      simp only [List.filterMap_cons, he, Option.map_none', List.map_cons]
      exact ih.cons e.1
    | some r =>
      simp only [List.filterMap_cons, he, Option.map_some', List.map_cons]
      exact ih.cons₂ e.1

/-! ### Lemmas about sorting by period key -/

theorem pairwise_keyLE_zip :
    ∀ {P : List Nat} {Q : List (Option ℚ)}, P.Pairwise (· ≤ ·) → (P.zip Q).Pairwise keyLE
  | [], _, _ => by simp
  | _ :: _, [], _ => by simp
  | p :: P, q :: Q, h => by
    rw [List.pairwise_cons] at h
    rw [List.zip_cons_cons, List.pairwise_cons]
    refine ⟨fun x hx => ?_, pairwise_keyLE_zip h.2⟩
    have hx1 : x.1 ∈ P := (List.of_mem_zip (by simpa using hx)).1
    exact h.1 x.1 hx1

theorem sorted_fst_of_pairwise_keyLE {l : List (Nat × Option ℚ)} (h : l.Pairwise keyLE) :
    (l.map Prod.fst).Pairwise (· ≤ ·) := by
  rw [List.pairwise_map]
  exact h

theorem drop_range' : ∀ (k s n : Nat), (List.range' s n).drop k = List.range' (s + k) (n - k)
  | 0, s, n => by simp
  | k + 1, s, 0 => by simp
  | k + 1, s, n + 1 => by
    rw [List.range'_succ, List.drop_succ_cons, drop_range' k (s + 1) n,
      Nat.succ_sub_succ]
    congr 1
    omega

/-! ### Error propagation through the orchestration -/

theorem getData_error {cfg : Config} {net : String → FetchResult}
    {e : PyErr} {ev : List LogEvent} (h : getData cfg net = (.error e, ev)) :
    e = .transport := by
  unfold getData at h
  split at h
  · rw [Prod.mk.injEq] at h
    injection h.1 with h1
    exact h1.symm
  · split at h
    · simp at h
    · split at h <;> simp at h

theorem getAndProcessData_error {cfg : Config} {net : String → FetchResult} {st : DPState}
    {e : PyErr} {ev : List LogEvent} (h : getAndProcessData cfg net st = (.error e, ev)) :
    e = .transport := by
  unfold getAndProcessData at h
  split at h
  next heq =>
    rw [Prod.mk.injEq] at h
    injection h.1 with h1
    exact h1 ▸ getData_error heq
  next => simp at h
  next df ev0 heq =>
    cases hp : processData cfg.name df with
    | mk r pev =>
      rw [hp] at h
      simp at h

theorem runAux_error_transport {net : String → FetchResult} :
    ∀ {cfgs : List Config} {st : DPState} {ev ev2 : List LogEvent} {e : PyErr},
      runAux net cfgs st ev = (.error e, ev2) → e = .transport
  | [], _, _, _, _, h => by cases h
  | cfg :: rest, st, ev, ev2, e, h => by
    unfold runAux at h
    split at h
    · exact runAux_error_transport h
    next e2 gev heq =>
      rw [Prod.mk.injEq] at h
      injection h.1 with h1
      exact h1 ▸ getAndProcessData_error heq

/-- Claim C9: `merge_data` has the implicit precondition that the collected
series are non-empty — invoked on zero series, `pd.concat` raises
(`Except.error PyErr.emptyConcat`); `generate_figure` only calls
`merge_data` behind the `if self.dataframes:` guard, so that exception is
unreachable through the top-level orchestration (the only exception that
can escape `generate_figure` is a transport error from the fetch stage). -/
theorem mergeData_empty_guard :
    mergeData [] = (.error .emptyConcat, []) ∧
      ∀ (cfgs : List Config) (net : String → FetchResult),
        (generateFigure cfgs net).1 ≠ .error .emptyConcat := by
  refine ⟨rfl, fun cfgs net => ?_⟩
  intro hbad
  unfold generateFigure at hbad
  split at hbad
  next e ev heq =>
    have he : e = .transport := runAux_error_transport heq
    subst he
    simp at hbad
  next st ev heq =>
    split at hbad
    · simp at hbad
    next hne =>
      split at hbad
      next e2 ev2 heq2 =>
        unfold mergeData at heq2
        split at heq2
        next hemp => exact absurd hemp hne
        next => split at heq2 <;> simp at heq2
      next => simp at hbad
      next => simp at hbad

/-! ### Claim C1 -/

/-- Claim C1: partly holds, partly contradicted by the code. A non-success
HTTP status does resolve to `None` plus one error event tagged with the
url. But `session.get` sits OUTSIDE the `try` block of `get_data`, so a
connection-level error (DNS failure, refused connection, TLS/transport
error) propagates as an exception out of `get_data` — with no typed result
and no logged event — contradicting the claim (and the class docstring,
which promises that a bad url is logged and skipped). -/
theorem getData_failure_paths :
    (∀ (cfg : Config) (net : String → FetchResult) (status : Nat) (body : List (List String)),
        net cfg.url = .response status body → status ≠ 200 →
        getData cfg net = (.ok none, [⟨.error, cfg.url⟩])) ∧
      ∀ (cfg : Config) (net : String → FetchResult),
        net cfg.url = .transportError → getData cfg net = (.error .transport, []) := by
  constructor
  · intro cfg net status body hnet hstatus
    unfold getData
    rw [hnet]
    simp only [if_pos hstatus]
  · intro cfg net hnet
    unfold getData
    rw [hnet]

/-- Concrete config for the C1 witness. -/
def cfgW1 : Config := { url := "http://w1", name := "W1", date_column := 0, cpi_column := 1 }

/-- Network oracle answering every request with HTTP 404. -/
def netStatus404 : String → FetchResult := fun _ => .response 404 []

/-- Network oracle failing every request at the connection level. -/
def netDown : String → FetchResult := fun _ => .transportError

theorem getData_failure_paths_witness :
    getData cfgW1 netStatus404 = (.ok none, [⟨.error, cfgW1.url⟩]) ∧
      getData cfgW1 netDown = (.error .transport, []) :=
  ⟨getData_failure_paths.1 cfgW1 netStatus404 404 [] rfl (by decide),
    getData_failure_paths.2 cfgW1 netDown rfl⟩

/-! ### Claim C10 -/

/-- A full date token of the shape four digits, hyphen, `Q`, digit whose
quarter digit is outside 1–4 (e.g. `2021-Q9`, `2021-Q0`). -/
def isBadQuarterToken (s : String) : Bool :=
  match s.data with
  | [a, b, c, d, e, f, g] =>
    a.isDigit && b.isDigit && c.isDigit && d.isDigit && e == '-' && f == 'Q' && g.isDigit &&
      !(g == '1' || g == '2' || g == '3' || g == '4')
  | _ => false

theorem badToken_facts {s : String} (h : isBadQuarterToken s = true) :
    hasQPat s.data = true ∧ parsePeriod s = none := by
  unfold isBadQuarterToken at h
  split at h
  next a b c d e f g heq =>
    simp only [Bool.and_eq_true] at h
    obtain ⟨⟨⟨⟨⟨⟨⟨h1, h2⟩, h3⟩, h4⟩, h5⟩, h6⟩, h7⟩, h8⟩ := h
    rw [Bool.not_eq_true'] at h8
    constructor
    · rw [heq]
      unfold hasQPat startsQPat
      simp [h1, h2, h3, h4, h5, h6, h7]
    · unfold parsePeriod
      rw [heq]
      simp [h8]
  next => cases h

/-- Claim C10: a single retained token with a quarter digit outside 1–4
passes the `\d{4}-Q\d` filter but makes `pd.PeriodIndex` raise, so
`process_data` fails the ENTIRE series — it returns `None` and one error
event tagged with the series name, discarding every other (valid) row. -/
theorem processData_bad_quarter_fails (n : String) (input : List (String × String))
    (h : ∃ p ∈ input, isBadQuarterToken (replaceSpaces p.1) = true) :
    processData n input = (none, [⟨.error, n⟩]) := by
  obtain ⟨p, hp, hbad⟩ := h
  obtain ⟨hpat, hparse⟩ := badToken_facts hbad
  have hmem : (replaceSpaces p.1, p.2) ∈ keptOf input := by
    unfold keptOf
    rw [List.mem_filter]
    exact ⟨List.mem_map_of_mem _ hp, by simpa using hpat⟩
  have hne : (keptOf input).isEmpty = false := by
    cases hk : keptOf input with
    | nil => rw [hk] at hmem; cases hmem
    | cons a l => rfl
  have hmap : mapOpt (fun q => parsePeriod q.1) (keptOf input) = none :=
    mapOpt_none_of_mem hmem hparse
  unfold processData
  rw [hne]
  simp only [Bool.false_eq_true, if_false, hmap]

/-- Concrete input for the C10 witness: one valid quarter row plus one
`2021-Q9` row. -/
def cInW10 : List (String × String) := [("2021-Q1", "10"), ("2021-Q9", "11")]

/-- Series name used by several concrete witness inputs. -/
def nmA : String := "A"

theorem processData_bad_quarter_fails_witness :
    processData nmA cInW10 = (none, [⟨.error, nmA⟩]) :=
  processData_bad_quarter_fails nmA cInW10 (by decide)

/-! ### Claim C8 -/

theorem cpi_name_ne_dateField (s : String) : ((s ++ CPI_SUFFIX) == DATE_FIELD) = false := by
  rw [beq_eq_false_iff_ne]
  intro h
  have hd : s.data ++ [' ', 'C', 'P', 'I'] = ['D', 'a', 't', 'e'] := by
    have hdata := congrArg String.data h
    rwa [String.data_append] at hdata
  have hlen : s.data.length + 4 = 4 := by
    simpa using congrArg List.length hd
  have hnil : s.data = [] := List.eq_nil_of_length_eq_zero (by omega)
  rw [hnil] at hd
  simp at hd

theorem dateField_ne_cpi_name (s : String) : (DATE_FIELD == s ++ CPI_SUFFIX) = false := by
  rw [beq_eq_false_iff_ne]
  intro h
  have hne := cpi_name_ne_dateField s
  rw [beq_eq_false_iff_ne] at hne
  exact hne h.symm

/-- Claim C8: for `date_column ≠ cpi_column` and rows wide enough for both
configured positions, `read_csv`'s positional `usecols`/`names` mechanism
binds the logical date field to the configured date column and the logical
value field to the configured value column, whichever of the two indices is
smaller — the conditional swap of `names` in `get_data` compensates for
pandas assigning names to the selected columns in ascending positional
order. -/
theorem readCsv_column_binding (cfg : Config) (rows : List (List String))
    (_hcols : cfg.date_column ≠ cfg.cpi_column)
    (hlen : ∀ r ∈ rows.drop cfg.skiprows, max cfg.date_column cfg.cpi_column < r.length) :
    readCsv cfg rows =
      some ((rows.drop cfg.skiprows).map
        (fun r => (r.getD cfg.date_column emptyCell, r.getD cfg.cpi_column emptyCell))) := by
  unfold readCsv
  apply mapOpt_some_of_forall
  intro r hr
  unfold readRow
  rw [if_pos (hlen r hr)]
  unfold csvNames usecolsSorted lookupCol
  by_cases hlt : cfg.date_column < cfg.cpi_column
  · rw [if_pos hlt, if_pos hlt]
    simp [List.find?, dateField_ne_cpi_name]
  · rw [if_neg hlt, if_neg hlt]
    simp [List.find?, cpi_name_ne_dateField, dateField_ne_cpi_name]

/-- Config for the C8 witness, with the date column PHYSICALLY AFTER the
value column. -/
def cfgW8 : Config :=
  { url := "http://w8", skiprows := 1, name := "R", date_column := 2, cpi_column := 0 }

/-- Rows for the C8 witness: one header row to skip, date in column 2,
value in column 0. -/
def rowsW8 : List (List String) :=
  [["h1", "h2", "h3"], ["10", "x", "2021-Q1"], ["11", "y", "2021-Q2"]]

theorem readCsv_column_binding_witness :
    readCsv cfgW8 rowsW8 = some [("2021-Q1", "10"), ("2021-Q2", "11")] :=
  (readCsv_column_binding cfgW8 rowsW8 (by decide) (by decide)).trans (by rfl)

/-! ### Claim C6 -/

theorem normalizeEntries_eq_nil_of_short (P : List Nat) (V : List ℚ) (h : V.length ≤ 4) :
    normalizeEntries P V = [] := by
  unfold normalizeEntries
  apply filterMap_pair_eq_nil
  intro e he
  have he' : e ∈ P.zip (pctChange4 V) :=
    (List.Perm.mem_iff (List.perm_insertionSort keyLE _)).mp he
  obtain ⟨a, b⟩ := e
  have h2 : b ∈ pctChange4 V := (List.of_mem_zip he').2
  unfold pctChange4 at h2
  rw [List.drop_eq_nil_of_le h] at h2
  simp only [List.zipWith_nil_left, List.map_nil, List.append_nil] at h2
  exact List.eq_of_mem_replicate h2

/-- Claim C6 counterexample: four quarters of data normalize to the
explicit empty outcome, but the event the code emits for it is an
ERROR-severity event (`self.logger.error`), not the warning the claim
asserts. -/
def cInW6 : List (String × String) :=
  [("2021-Q1", "10"), ("2021-Q2", "10"), ("2021-Q3", "10"), ("2021-Q4", "10")]

/-- Series name for the C6 counterexample. -/
def nmS : String := "S"

theorem processData_short_series_event_severity :
    processData nmS cInW6 = (some [], [⟨.error, nmS⟩]) ∧ Sev.error ≠ Sev.warning :=
  ⟨by decide, by decide⟩

/-- Claim C6 (amended): a source whose retained quarterly data has fewer
than 5 rows (in particular one spanning fewer than 5 distinct quarters with
no duplicated quarter token) normalizes to the explicit empty outcome
`some []` — distinct from the failure outcome `none` — with one event
tagged with the series name, but that event is ERROR severity, not a
warning; and `get_and_process_data` stores nothing for it, so the source
contributes nothing to the merge. -/
theorem processData_short_series_empty (n : String) (input : List (String × String))
    (periods : List Nat)
    (hP : mapOpt (fun p => parsePeriod p.1) (keptOf input) = some periods)
    (hQ : input.all (fun p => (parseQ p.2).isSome) = true)
    (hne : (keptOf input).isEmpty = false)
    (hshort : (keptOf input).length < 5) :
    processData n input = (some [], [⟨.error, n⟩]) ∧
      ∀ st : DPState, storeResult st n (some []) = st := by
  constructor
  · unfold processData
    rw [hne]
    simp only [Bool.false_eq_true, if_false, hP, hQ, if_true]
    have hnil : normalizeEntries periods ((keptOf input).map fun p => (parseQ p.2).getD 0) = [] :=
      normalizeEntries_eq_nil_of_short _ _ (by simpa using Nat.lt_succ_iff.mp hshort)
    unfold processedOf
    rw [hnil]
    rfl
  · intro st
    rfl

theorem processData_short_series_empty_witness :
    processData nmS cInW6 = (some [], [⟨.error, nmS⟩]) ∧
      storeResult [] nmS (some []) = [] := by
  have h := processData_short_series_empty nmS cInW6 [8084, 8085, 8086, 8087]
    (by decide) (by decide) (by decide) (by decide)
  exact ⟨h.1, h.2 []⟩

/-! ### Claim C4 -/

theorem keptOf_middle (pre post : List (String × String)) (d v : String)
    (hd : hasQPat (replaceSpaces d).data = false) :
    keptOf (pre ++ (d, v) :: post) = keptOf (pre ++ post) := by
  unfold keptOf
  rw [List.map_append, List.map_append, List.map_cons,
    List.filter_append, List.filter_append, List.filter_cons]
  simp [hd]

/-- Claim C4 counterexample: on an input in which EVERY token is a
non-quarter token the transform stage does produce an error — the filtered
frame is empty, `pd.PeriodIndex` raises, and `process_data` returns the
failure outcome with one error event (exactly the behaviour the repo's own
`test_error_process_data` asserts) — contradicting "without producing an
error — including inputs in which every token is a non-quarter token". -/
def cInW4 : List (String × String) := [("2021", "10"), ("2022", "11")]

/-- Series name used by the C4 theorems, mirroring the repo test's config. -/
def nmT : String := "test CPI"

theorem processData_all_nonquarter_errors :
    processData nmT cInW4 = (none, [⟨.error, nmT⟩]) := by decide

/-- Bare-year token from the claim's examples. -/
def yearToken : String := "2021"

/-- Month-qualified token from the claim's examples. -/
def monthToken : String := "2014 NOV"

/-- Claim C4 (amended): the transform stage first replaces internal spaces
with hyphens, then retains only tokens containing the pattern four digits,
hyphen, `Q`, digit; a non-quarter token anywhere in the input is discarded
silently — removing it changes nothing about the outcome — provided its
value cell is numeric; the claim's example tokens `2021` and `2014 NOV` are
both discarded; but when EVERY token is non-quarter the stage fails with
the failure outcome and one error event rather than succeeding silently. -/
theorem processData_quarter_filter :
    (∀ (n : String) (input : List (String × String)),
        keptOf input = [] → processData n input = (none, [⟨.error, n⟩])) ∧
      (∀ (n : String) (pre post : List (String × String)) (d v : String),
          hasQPat (replaceSpaces d).data = false → (parseQ v).isSome →
          processData n (pre ++ (d, v) :: post) = processData n (pre ++ post)) ∧
      hasQPat (replaceSpaces yearToken).data = false ∧
      hasQPat (replaceSpaces monthToken).data = false := by
  refine ⟨fun n input h => ?_, fun n pre post d v hd hv => ?_, by decide, by decide⟩
  · unfold processData
    rw [h]
    rfl
  · unfold processData
    rw [keptOf_middle pre post d v hd]
    have hall : (pre ++ (d, v) :: post).all (fun p => (parseQ p.2).isSome) =
        (pre ++ post).all (fun p => (parseQ p.2).isSome) := by
      simp [List.all_append, hv]
    rw [hall]

/-- Input kept by the C4 witness (one valid quarter row). -/
def cInW4b : List (String × String) := [("2021-Q1", "10")]

/-- The discarded token of the C4 witness. -/
def tokNov : String := "2014 NOV"

/-- Its (numeric) value cell. -/
def valFive : String := "5"

theorem processData_quarter_filter_witness :
    processData nmA cInW4 = (none, [⟨.error, nmA⟩]) ∧
      processData nmA (cInW4b ++ (tokNov, valFive) :: []) = processData nmA (cInW4b ++ []) :=
  ⟨processData_quarter_filter.1 nmA cInW4 (by decide),
    processData_quarter_filter.2.1 nmA cInW4b [] tokNov valFive (by decide) (by decide)⟩

/-! ### Claim C5 -/

theorem contains_iff_mem {l : List Nat} {p : Nat} : l.contains p = true ↔ p ∈ l := by
  induction l with
  | nil => simp
  | cons a t ih => simp [List.contains_cons, ih]

theorem lookupPeriod_isSome_iff (s : List (Nat × ℚ)) (p : Nat) :
    (lookupPeriod s p).isSome ↔ p ∈ seriesKeys s := by
  unfold lookupPeriod seriesKeys
  rw [Option.isSome_map', List.find?_isSome]
  constructor
  · rintro ⟨e, he, hbeq⟩
    rw [beq_iff_eq] at hbeq
    exact hbeq ▸ List.mem_map_of_mem Prod.fst he
  · intro hp
    obtain ⟨e, he, hfst⟩ := List.mem_map.mp hp
    exact ⟨e, he, by simpa [beq_iff_eq] using hfst⟩

theorem mem_innerIndex_iff {dfs : List (List (Nat × ℚ))} (h : dfs ≠ []) (p : Nat) :
    p ∈ innerIndex dfs ↔ ∀ s ∈ dfs, p ∈ seriesKeys s := by
  cases dfs with
  | nil => exact absurd rfl h
  | cons s rest =>
    unfold innerIndex
    rw [List.mem_filter]
    constructor
    · rintro ⟨hp0, hall⟩
      rw [List.all_eq_true] at hall
      intro t ht
      rcases List.mem_cons.mp ht with rfl | ht'
      · exact hp0
      · exact contains_iff_mem.mp (hall t ht')
    · intro hall
      refine ⟨hall s (List.mem_cons_self s rest), ?_⟩
      rw [List.all_eq_true]
      intro t ht
      exact contains_iff_mem.mpr (hall t (List.mem_cons_of_mem s ht))

/-- Claim C5: for a non-empty collection of normalized series, the merged
table keeps exactly the periods present in EVERY series (inner alignment),
carries one column per series, and every retained row has the defined value
of every series at that period; `merge_data` returns that table (as `None`
when the intersection is empty). -/
theorem mergeData_inner_alignment (st : DPState) (h : st ≠ []) :
    (∀ p : Nat, p ∈ (mergeRows (st.map Prod.snd)).map Prod.fst ↔
        ∀ s ∈ st.map Prod.snd, p ∈ seriesKeys s) ∧
      (∀ r ∈ mergeRows (st.map Prod.snd),
          (∀ s ∈ st.map Prod.snd, (lookupPeriod s r.1).isSome) ∧
            r.2 = (st.map Prod.snd).map (fun s => (lookupPeriod s r.1).getD 0)) ∧
      (mergeData st).1 = .ok (if (mergeRows (st.map Prod.snd)).isEmpty then none
        else some (mergeRows (st.map Prod.snd))) := by
  have hdfs : st.map Prod.snd ≠ [] := by
    cases st with
    | nil => exact absurd rfl h
    | cons a t => simp
  refine ⟨fun p => ?_, fun r hr => ?_, ?_⟩
  · constructor
    · intro hp
      obtain ⟨r, hr, hfst⟩ := List.mem_map.mp hp
      unfold mergeRows at hr
      rw [List.mem_filterMap] at hr
      obtain ⟨q, hq, hmap⟩ := hr
      cases hvs : mapOpt (fun s => lookupPeriod s q) (st.map Prod.snd) with
      | none => rw [hvs] at hmap; cases hmap
      | some vs =>
        rw [hvs] at hmap
        injection hmap with hmap
        have hq' : q = p := by rw [← hfst, ← hmap]
        subst hq'
        exact (mem_innerIndex_iff hdfs q).mp hq
    · intro hall
      have hq : p ∈ innerIndex (st.map Prod.snd) := (mem_innerIndex_iff hdfs p).mpr hall
      have hsome : ∀ s ∈ st.map Prod.snd, (lookupPeriod s p).isSome :=
        fun s hs => (lookupPeriod_isSome_iff s p).mpr (hall s hs)
      obtain ⟨vs, hvs⟩ := mapOpt_some_of_forall_isSome hsome
      refine List.mem_map.mpr ⟨(p, vs), ?_, rfl⟩
      unfold mergeRows
      rw [List.mem_filterMap]
      exact ⟨p, hq, by rw [hvs]; rfl⟩
  · unfold mergeRows at hr
    rw [List.mem_filterMap] at hr
    obtain ⟨q, hq, hmap⟩ := hr
    cases hvs : mapOpt (fun s => lookupPeriod s q) (st.map Prod.snd) with
    | none => rw [hvs] at hmap; cases hmap
    | some vs =>
      rw [hvs] at hmap
      injection hmap with hmap
      subst hmap
      exact ⟨mapOpt_isSome_of_eq_some hvs, (mapOpt_eq_some_getD 0 hvs).symm ▸ rfl⟩
  · unfold mergeData
    have hne : st.isEmpty = false := by
      cases st with
      | nil => exact absurd rfl h
      | cons a t => rfl
    rw [hne]
    by_cases hrows : (mergeRows (st.map Prod.snd)).isEmpty
    · simp [hrows]
    · simp [hrows]

/-- State for the C5 witness: two series overlapping only at period 2. -/
def stW5 : DPState := [("A", [(1, 5), (2, 6)]), ("B", [(2, 7), (3, 8)])]

theorem mergeData_inner_alignment_witness :
    ((2 : Nat) ∈ (mergeRows (stW5.map Prod.snd)).map Prod.fst ↔
        ∀ s ∈ stW5.map Prod.snd, (2 : Nat) ∈ seriesKeys s) ∧
      (mergeData stW5).1 = .ok (if (mergeRows (stW5.map Prod.snd)).isEmpty then none
        else some (mergeRows (stW5.map Prod.snd))) := by
  have h := mergeData_inner_alignment stW5 (by decide)
  exact ⟨h.1 2, h.2.2⟩

/-! ### Transform-stage evaluation helpers -/

theorem normalizeEntries_sorted (P : List Nat) (V : List ℚ) (hs : P.Pairwise (· ≤ ·)) :
    normalizeEntries P V =
      (P.drop 4).zip (List.zipWith (fun v vp => (v - vp) / vp * 100) (V.drop 4) V) := by
  unfold normalizeEntries
  rw [List.Sorted.insertionSort_eq (pairwise_keyLE_zip hs)]
  unfold pctChange4
  rw [filterMap_pair_zip_replicate 4 P _]

theorem processData_eq_processedOf (n : String) (input : List (String × String))
    (periods : List Nat)
    (hne : (keptOf input).isEmpty = false)
    (hP : mapOpt (fun p => parsePeriod p.1) (keptOf input) = some periods)
    (hQ : input.all (fun p => (parseQ p.2).isSome) = true) :
    processData n input =
      processedOf n periods ((keptOf input).map (fun p => (parseQ p.2).getD 0)) := by
  unfold processData
  rw [hne]
  simp only [Bool.false_eq_true, if_false, hP, hQ, if_true]

theorem normalizeEntries_range' (p0 len : Nat) (V : List ℚ) :
    normalizeEntries (List.range' p0 len) V =
      (List.range' (p0 + 4) (len - 4)).zip
        (List.zipWith (fun v vp => (v - vp) / vp * 100) (V.drop 4) V) := by
  rw [normalizeEntries_sorted _ _ (List.pairwise_le_range' p0 len), drop_range']

/-! ### Claim C2 -/

/-- The transport-failing source of the C2 scenario. -/
def cfgA2 : Config := { url := "http://a", name := "A", date_column := 0, cpi_column := 1 }

/-- The healthy source of the C2 scenario. -/
def cfgB2 : Config := { url := "http://b", name := "B", date_column := 0, cpi_column := 1 }

/-- Five quarters of CSV for the healthy source. -/
def bodyB2 : List (List String) :=
  [["2021-Q1", "10"], ["2021-Q2", "10"], ["2021-Q3", "10"], ["2021-Q4", "10"],
    ["2022-Q1", "11"]]

/-- Network oracle: connection-level failure for source A, HTTP 200 with
good data for everything else. -/
def netC2 : String → FetchResult := fun u =>
  if u == "http://a" then .transportError else .response 200 bodyB2

/-- Claim C2: contradicted by the code for the transport-failure mode. With
source A failing at the connection level and source B healthy, the
uncaught `aiohttp` exception propagates through `asyncio.gather`, so
`run()` raises instead of completing — aborting the whole orchestration
(`generate_figure` raises too) with nothing logged — even though source B
alone reaches the Normalized terminal state with a non-empty series. (For
the handled failure modes — bad HTTP status, CSV/parse errors, emptiness —
isolation does hold: each resolves inside its own pipeline, as the other
claims' theorems show.) -/
theorem run_transport_aborts :
    run [cfgA2, cfgB2] netC2 = (.error .transport, []) ∧
      (run [cfgB2] netC2).1 = .ok [(cfgB2.name, [(8088, 10)])] ∧
      (generateFigure [cfgA2, cfgB2] netC2).1 = .error .transport :=
  ⟨by rfl, by with_unfolding_all rfl, by rfl⟩

/-! ### Claim C3 -/

/-- Input for the C3 counterexample: a gap of three quarters between the
first retained row (2020-Q1) and the rest (2021-Q1..2021-Q4). -/
def cInW3 : List (String × String) :=
  [("2020-Q1", "100"), ("2021-Q1", "10"), ("2021-Q2", "10"), ("2021-Q3", "10"),
    ("2021-Q4", "40")]

set_option maxRecDepth 2000 in
/-- Claim C3 counterexample: `pct_change(periods=4)` is POSITIONAL, not
period-indexed. On `cInW3` the code keeps one entry, at period 2021-Q4
(index 8087), with rate `(40 - 100) / 100 * 100 = -60` computed against the
value of the row four ROWS back (2020-Q1), even though no period 2020-Q4
(index 8083) exists in the retained set — the claim instead requires the
comparator to be the value exactly 4 quarterly periods earlier and the
entry to be dropped when that period is absent. -/
theorem processData_yoy_not_by_period :
    (processData nmA cInW3).1 = some [(8087, -60)] ∧
      mapOpt (fun p => parsePeriod p.1) (keptOf cInW3) =
        some [8080, 8084, 8085, 8086, 8087] ∧
      (8083 : Nat) ∉ [8080, 8084, 8085, 8086, 8087] := by
  refine ⟨?_, by decide, by decide⟩
  rw [processData_eq_processedOf nmA cInW3 [8080, 8084, 8085, 8086, 8087]
    (by decide) (by decide) (by decide)]
  have hV : (keptOf cInW3).map (fun p => (parseQ p.2).getD 0) =
      [100, 10, 10, 10, 40] := by with_unfolding_all decide
  rw [hV]
  unfold processedOf
  rw [normalizeEntries_sorted _ _ (by decide)]
  norm_num [List.zip, List.zipWith, List.drop]

/-- Claim C3 (amended): the year-on-year rate is computed POSITIONALLY —
row `i` (zero-based, `i ≥ 4`) of the retained sequence, in its input row
order, gets rate `(v[i] - v[i-4]) / v[i-4] * 100` keyed by row `i`'s
period, and the first four rows are dropped. When the retained periods are
consecutive ascending quarters `p0, p0+1, …` (so row `i-4` holds the period
exactly one year before row `i`), this coincides with the claim's
period-based formula; with gaps or out-of-order rows it does not. -/
theorem processData_yoy_positional (n : String) (input : List (String × String))
    (p0 len : Nat) (hlen : 0 < len)
    (hP : mapOpt (fun p => parsePeriod p.1) (keptOf input) = some (List.range' p0 len))
    (hQ : input.all (fun p => (parseQ p.2).isSome) = true) :
    (processData n input).1 =
      some ((List.range' (p0 + 4) (len - 4)).zip
        (List.zipWith (fun v vp => (v - vp) / vp * 100)
          (((keptOf input).map (fun p => (parseQ p.2).getD 0)).drop 4)
          ((keptOf input).map (fun p => (parseQ p.2).getD 0)))) := by
  have hkept : (List.range' p0 len).length = (keptOf input).length := mapOpt_length hP
  have hne : (keptOf input).isEmpty = false := by
    rw [List.isEmpty_eq_false]
    intro hnil
    rw [hnil] at hkept
    simp at hkept
    omega
  unfold processData
  rw [hne]
  simp only [Bool.false_eq_true, if_false, hP, hQ, if_true]
  unfold processedOf
  rw [normalizeEntries_range']

/-- Input for the C3 witness: five consecutive quarters (one with the
space-separated date format). -/
def cInC3W : List (String × String) :=
  [("2021-Q1", "10"), ("2021 Q2", "10"), ("2021-Q3", "10"), ("2021-Q4", "10"),
    ("2022-Q1", "11")]

theorem processData_yoy_positional_witness :
    (processData nmA cInC3W).1 = some [(8088, 10)] := by
  rw [processData_yoy_positional nmA cInC3W 8084 5 (by decide) (by decide) (by decide)]
  have hV : (keptOf cInC3W).map (fun p => (parseQ p.2).getD 0) =
      [10, 10, 10, 10, 11] := by with_unfolding_all decide
  rw [hV]
  norm_num [List.range', List.zip, List.zipWith, List.drop]

/-! ### Claim C7 -/

/-- Input for the C7 counterexample: `2022-Q1` and `2022 Q1` both
normalize to the same quarter and both sit at row positions ≥ 4, so both
survive the rate computation. -/
def cInW7 : List (String × String) :=
  [("2021-Q1", "10"), ("2021-Q2", "10"), ("2021-Q3", "10"), ("2021-Q4", "10"),
    ("2022-Q1", "11"), ("2022 Q1", "12")]

/-- Claim C7 counterexample: on `cInW7` the produced series keeps TWO
entries keyed by the same period 2022-Q1 (index 8088) — one from each of
the two tokens that normalize to that quarter — so a NormalizedSeries is
not always strictly increasing and two entries may share a period. -/
theorem processData_duplicate_period :
    ((processData nmA cInW7).1.getD []).map Prod.fst = [8088, 8088] ∧
      ¬ (((processData nmA cInW7).1.getD []).map Prod.fst).Pairwise (· < ·) := by
  have h := processData_eq_processedOf nmA cInW7 [8084, 8085, 8086, 8087, 8088, 8088]
    (by decide) (by decide) (by decide)
  rw [h]
  unfold processedOf
  rw [normalizeEntries_sorted _ _ (by decide)]
  have hkeys : ∀ V : List ℚ, V.length = 6 →
      ((([8084, 8085, 8086, 8087, 8088, 8088] : List Nat).drop 4).zip
        (List.zipWith (fun v vp => (v - vp) / vp * 100) (V.drop 4) V)).map Prod.fst =
        [8088, 8088] := by
    intro V hV
    match V, hV with
    | [a, b, c, d, e, f], _ => rfl
  have hlen : ((keptOf cInW7).map (fun p => (parseQ p.2).getD 0)).length = 6 := by decide
  rw [Option.getD_some, hkeys _ hlen]
  exact ⟨rfl, by decide⟩

/-- Claim C7 (amended): a produced NormalizedSeries is always sorted
non-decreasingly by period and contains no undefined rate, and when no two
retained tokens normalize to the same quarter (the parsed period list has
no duplicates) it is strictly increasing; but two tokens normalizing to
the same quarter (e.g. `2021 Q1` and `2021-Q1`) can both be retained, so
strict increase — "no two entries share a period" — does not hold in
general. -/
theorem processData_sorted_keys (n : String) (input : List (String × String))
    (res : List (Nat × ℚ)) (h : (processData n input).1 = some res) :
    ((res.map Prod.fst).Pairwise (· ≤ ·)) ∧
      ∀ periods : List Nat,
        mapOpt (fun p => parsePeriod p.1) (keptOf input) = some periods →
        periods.Nodup → (res.map Prod.fst).Pairwise (· < ·) := by
  unfold processData at h
  split at h
  · simp at h
  · split at h
    next => simp at h
    next P heqP =>
      split at h
      · unfold processedOf at h
        simp only [Option.some.injEq] at h
        subst h
        have hsorted : (List.insertionSort keyLE
            (P.zip (pctChange4 ((keptOf input).map (fun p => (parseQ p.2).getD 0))))).Pairwise
              keyLE := List.sorted_insertionSort keyLE _
        have hsub := filterMap_pair_keys_sublist (List.insertionSort keyLE
          (P.zip (pctChange4 ((keptOf input).map (fun p => (parseQ p.2).getD 0)))))
        have hle : ((normalizeEntries P
            ((keptOf input).map (fun p => (parseQ p.2).getD 0))).map Prod.fst).Pairwise
              (· ≤ ·) := by
          unfold normalizeEntries
          exact List.Pairwise.sublist hsub (sorted_fst_of_pairwise_keyLE hsorted)
        refine ⟨hle, fun periods hper hnodup => ?_⟩
        have hPeq : periods = P := by
          have := hper.symm.trans heqP
          injection this
        subst hPeq
        have hlenP : periods.length =
            ((keptOf input).map (fun p => (parseQ p.2).getD 0)).length := by
          rw [List.length_map]
          exact mapOpt_length hper
        have hlenpct : periods.length ≤
            (pctChange4 ((keptOf input).map (fun p => (parseQ p.2).getD 0))).length := by
          unfold pctChange4
          rw [List.length_append, List.length_replicate, List.length_map,
            List.length_zipWith, List.length_drop]
          omega
        have hkeysentries : (periods.zip
            (pctChange4 ((keptOf input).map (fun p => (parseQ p.2).getD 0)))).map Prod.fst =
            periods := List.map_fst_zip _ _ hlenpct
        have hpermkeys : List.Perm ((List.insertionSort keyLE
            (periods.zip (pctChange4 ((keptOf input).map (fun p => (parseQ p.2).getD 0))))).map
              Prod.fst) periods := by
          have hp := (List.perm_insertionSort keyLE
            (periods.zip (pctChange4 ((keptOf input).map
              (fun p => (parseQ p.2).getD 0))))).map Prod.fst
          rwa [hkeysentries] at hp
        have hnodupsorted : ((List.insertionSort keyLE
            (periods.zip (pctChange4 ((keptOf input).map (fun p => (parseQ p.2).getD 0))))).map
              Prod.fst).Nodup := hpermkeys.symm.nodup hnodup
        have hnodupres : ((normalizeEntries periods
            ((keptOf input).map (fun p => (parseQ p.2).getD 0))).map Prod.fst).Nodup := by
          unfold normalizeEntries
          exact List.Nodup.sublist hsub hnodupsorted
        exact (hle.and hnodupres).imp (fun hab => lt_of_le_of_ne hab.1 hab.2)
      · simp at h

/-- Input for the C7 witness: five consecutive quarters, no duplicates. -/
def cInC7W : List (String × String) :=
  [("2021-Q1", "20"), ("2021-Q2", "20"), ("2021-Q3", "20"), ("2021-Q4", "20"),
    ("2022-Q1", "22")]

theorem processData_sorted_keys_witness :
    (([(8088, (10 : ℚ))].map Prod.fst).Pairwise (· ≤ ·)) ∧
      (([(8088, (10 : ℚ))].map Prod.fst).Pairwise (· < ·)) := by
  have hres : (processData nmA cInC7W).1 = some [(8088, 10)] := by
    rw [processData_eq_processedOf nmA cInC7W [8084, 8085, 8086, 8087, 8088]
      (by decide) (by decide) (by decide)]
    have hV : (keptOf cInC7W).map (fun p => (parseQ p.2).getD 0) =
        [20, 20, 20, 20, 22] := by with_unfolding_all decide
    unfold processedOf
    rw [hV, normalizeEntries_sorted _ _ (by decide)]
    norm_num [List.zip, List.zipWith, List.drop]
  have h := processData_sorted_keys nmA cInC7W [(8088, 10)] hres
  exact ⟨h.1, h.2 [8084, 8085, 8086, 8087, 8088] (by decide) (by decide)⟩

end InflationApp
